import Mathlib

/-!
Shallow embedding of the oaschecker middleware (middleware.go).

The middleware wraps an HTTP handler, resolves each request against an
OpenAPI router, validates request and response with an external
conformance engine, records validation issues in an append-only log,
and replays the captured response verbatim to the real caller.

External collaborators (the router `FindRoute`, the engine
`ValidateRequest` / `ValidateResponse`, and the wrapped handler `next`)
are modelled as function fields of an environment record; the core
control flow of `ServeHTTP`, `Validate` and `addIssue` is translated
directly from the Go source.
-/

namespace Oaschecker

/-- An HTTP request as the middleware sees it: method, the string form of
its URL (`r.URL.String()` is what `addIssue` records and `FindRoute`
consumes the same URL), headers and body bytes. -/
structure Request where
  method : String
  url : String
  headers : List (String × List String)
  body : List UInt8
deriving DecidableEq

/-- A captured response: status code, header map (Go `http.Header` is a
map from key to list of values, modelled as an association list) and
body bytes, exactly the data `httptest.NewRecorder` captures. -/
structure Response where
  code : Nat
  headers : List (String × List String)
  body : List UInt8
deriving DecidableEq

/-- The `validationIssue` record from middleware.go. -/
structure ValidationIssue where
  Method : String
  URI : String
  Description : String
deriving DecidableEq

/-- One write operation performed on the real `http.ResponseWriter`:
setting a header entry, writing the status code, or writing body bytes. -/
inductive WEvent where
  | setHeader (k : String) (v : List String)
  | writeHeader (code : Nat)
  | writeBody (b : List UInt8)
deriving DecidableEq

/-- A resolved route, opaque to the middleware (it is only passed back
to the validation engine). -/
structure Route where
  id : Nat
deriving DecidableEq

/-- Path parameters extracted by the router. -/
abbrev PathParams := List (String × String)

/-- The external collaborators of one middleware instance: the router,
the two conformance-engine entry points, and the wrapped handler. The
wrapped handler is modelled by the response it produces for a request;
the engine checks return `none` on success and `some msg` on failure,
mirroring Go `error` results rendered with `%v`. -/
structure Env where
  findRoute : String → String → Except String (Route × PathParams)
  validateRequest : Request → Route → PathParams → Option String
  validateResponse : Request → Route → PathParams → Nat → List (String × List String) → List UInt8 → Option String
  next : Request → Response

/-- Translation of `Middleware.addIssue`: append one `validationIssue`
built from the method, the URL string and the description to the issue
log. -/
def addIssue (issues : List ValidationIssue) (method url description : String) : List ValidationIssue :=
  issues ++ [{ Method := method, URI := url, Description := description }]

/-- The canonical sequence of writes delivering a response: each header
entry is copied into the writer's header map, then the status code is
written, then the body bytes. -/
def renderEvents (res : Response) : List WEvent :=
  res.headers.map (fun kv => WEvent.setHeader kv.1 kv.2) ++
    [WEvent.writeHeader res.code, WEvent.writeBody res.body]

/-- Everything one call to `ServeHTTP` does: the writes made to the real
response writer, the issue log after the call, the requests passed to
the wrapped handler (in order), and how often each engine entry point
was invoked. -/
structure ExchangeResult where
  events : List WEvent
  issues : List ValidationIssue
  handlerCalls : List Request
  requestValidations : Nat
  responseValidations : Nat
deriving DecidableEq

/-- Translation of `Middleware.ServeHTTP` from middleware.go.

`issues0` is the issue log of the middleware before the call (the Go
code mutates `c.issues` through `addIssue`).

Control flow of the source: resolve the route; on failure record a
route-not-found issue and forward to the wrapped handler directly.
Otherwise validate the request (recording a failure without aborting),
invoke the wrapped handler against a recorder, replay headers, status
code and body to the real writer, and, only when the captured body is
non-empty, validate the response (recording a failure). -/
def serveHTTP (env : Env) (issues0 : List ValidationIssue) (r : Request) : ExchangeResult :=
  match env.findRoute r.method r.url with
  | .error e =>
      { events := renderEvents (env.next r)
        issues := addIssue issues0 r.method r.url ("Route not found in specification: " ++ e)
        handlerCalls := [r]
        requestValidations := 0
        responseValidations := 0 }
  | .ok (route, pathParams) =>
      let issues1 :=
        match env.validateRequest r route pathParams with
        | some e => addIssue issues0 r.method r.url ("Invalid request: " ++ e)
        | none => issues0
      let recorder := env.next r
      if recorder.body.length > 0 then
        match env.validateResponse r route pathParams recorder.code recorder.headers recorder.body with
        | some e =>
            { events := renderEvents recorder
              issues := addIssue issues1 r.method r.url ("Invalid response: " ++ e)
              handlerCalls := [r]
              requestValidations := 1
              responseValidations := 1 }
        | none =>
            { events := renderEvents recorder
              issues := issues1
              handlerCalls := [r]
              requestValidations := 1
              responseValidations := 1 }
      else
        { events := renderEvents recorder
          issues := issues1
          handlerCalls := [r]
          requestValidations := 1
          responseValidations := 0 }

/-- The rendering of one issue inside `Middleware.Validate`:
`fmt.Sprintf` with format string method, URI, colon, description. -/
def issueLine (issue : ValidationIssue) : String :=
  issue.Method ++ " " ++ issue.URI ++ ": " ++ issue.Description

/-- Translation of `Middleware.Validate`: `none` when the log is empty,
otherwise the aggregate error text produced by `fmt.Errorf` over the
joined issue lines. -/
def Validate (issues : List ValidationIssue) : Option String :=
  if issues.length = 0 then none
  else
    some ("Errors were found validating the API specification:\n" ++
      String.intercalate ("\n---\n") (issues.map issueLine))

/-! Concrete sample data used to exercise the theorems. -/

/-- A sample request, mirroring the valid GET of the repository's tests. -/
def req1 : Request :=
  { method := "GET", url := "http://petstore.swagger.io/v1/pets", headers := [], body := [] }

/-- A sample handler response with a non-empty JSON body. -/
def resp1 : Response :=
  { code := 200, headers := [("Content-Type", ["application/json"])], body := [91, 93] }

/-- A sample handler response with an empty body. -/
def respEmpty : Response := { code := 200, headers := [], body := [] }

/-- A sample resolved route. -/
def route1 : Route := { id := 0 }

/-- Environment where the route resolves and both validations pass. -/
def envOk : Env :=
  { findRoute := fun _ _ => .ok (route1, [])
    validateRequest := fun _ _ _ => none
    validateResponse := fun _ _ _ _ _ _ => none
    next := fun _ => resp1 }

/-- Environment where route resolution fails. -/
def envNotFound : Env :=
  { findRoute := fun _ _ => .error ("Does not match any server")
    validateRequest := fun _ _ _ => none
    validateResponse := fun _ _ _ _ _ _ => none
    next := fun _ => resp1 }

/-- Environment where request validation fails. -/
def envBadRequest : Env :=
  { findRoute := fun _ _ => .ok (route1, [])
    validateRequest := fun _ _ _ => some ("missing Content-Type")
    validateResponse := fun _ _ _ _ _ _ => none
    next := fun _ => resp1 }

/-- Environment where response validation fails on a non-empty body. -/
def envBadResponse : Env :=
  { findRoute := fun _ _ => .ok (route1, [])
    validateRequest := fun _ _ _ => none
    validateResponse := fun _ _ _ _ _ _ => some ("unexpected value")
    next := fun _ => resp1 }

/-- Environment where the handler returns an empty body while the
response validator would reject everything. -/
def envEmptyBody : Env :=
  { findRoute := fun _ _ => .ok (route1, [])
    validateRequest := fun _ _ _ => none
    validateResponse := fun _ _ _ _ _ _ => some ("unexpected value")
    next := fun _ => respEmpty }

/-- A sample issue for exercising `Validate`. -/
def cIssue : ValidationIssue := { Method := "GET", URI := "http://u", Description := "d" }

/-! Helper lemmas distinguishing the three issue-description families. -/

/-- No request-validation description coincides with a
response-validation description: the fixed preambles differ. -/
theorem descr_req_ne_res (a b : String) :
    ("Invalid request: " ++ a) ≠ ("Invalid response: " ++ b) := by
  intro h
  have hd := congrArg String.data h
  rw [String.data_append, String.data_append] at hd
  have h10 := congrArg (fun l => l[10]?) hd
  simp only at h10
  rw [List.getElem?_append, List.getElem?_append] at h10
  simp at h10

/-- No route-not-found description coincides with a response-validation
description: the fixed preambles differ. -/
theorem descr_route_ne_res (a b : String) :
    ("Route not found in specification: " ++ a) ≠ ("Invalid response: " ++ b) := by
  intro h
  have hd := congrArg String.data h
  rw [String.data_append, String.data_append] at hd
  have h0 := congrArg (fun l => l[0]?) hd
  simp only at h0
  rw [List.getElem?_append, List.getElem?_append] at h0
  simp at h0

/-! The claims. -/

/-- Claim C1: for every exchange, whatever the outcome of route
resolution and of the validation steps, the writes delivered to the real
caller are exactly the wrapped handler's captured headers, then its
captured status code, then its captured body bytes, in that order and
without transformation. -/
theorem serveHTTP_pass_through (env : Env) (issues0 : List ValidationIssue) (r : Request) :
    (serveHTTP env issues0 r).events =
      (env.next r).headers.map (fun kv => WEvent.setHeader kv.1 kv.2) ++
        [WEvent.writeHeader (env.next r).code, WEvent.writeBody (env.next r).body] := by
  unfold serveHTTP
  cases henv : env.findRoute r.method r.url with
  | error e => simp [renderEvents]
  | ok rp =>
    obtain ⟨route, pp⟩ := rp
    cases hreq : env.validateRequest r route pp <;>
      simp only <;>
      by_cases hb : (env.next r).body.length > 0 <;>
      [skip; simp [renderEvents, hb]; skip; simp [renderEvents, hb]] <;>
      cases hres : env.validateResponse r route pp (env.next r).code (env.next r).headers (env.next r).body <;>
      simp [renderEvents, hb, hres]

/-- Claim C7: the wrapped handler is invoked exactly once per exchange,
on both the route-not-found path and the resolved path. -/
theorem serveHTTP_handler_once (env : Env) (issues0 : List ValidationIssue) (r : Request) :
    (serveHTTP env issues0 r).handlerCalls.length = 1 := by
  unfold serveHTTP
  cases henv : env.findRoute r.method r.url with
  | error e => simp
  | ok rp =>
    obtain ⟨route, pp⟩ := rp
    cases hreq : env.validateRequest r route pp <;>
      simp only <;>
      by_cases hb : (env.next r).body.length > 0 <;>
      [skip; simp [hb]; skip; simp [hb]] <;>
      cases hres : env.validateResponse r route pp (env.next r).code (env.next r).headers (env.next r).body <;>
      simp [hb, hres]

/-- Claim C8: the wrapped handler receives the original request
unmodified, even though request validation runs before the handler is
invoked. -/
theorem serveHTTP_handler_sees_original (env : Env) (issues0 : List ValidationIssue) (r : Request) :
    (serveHTTP env issues0 r).handlerCalls = [r] := by
  unfold serveHTTP
  cases henv : env.findRoute r.method r.url with
  | error e => simp
  | ok rp =>
    obtain ⟨route, pp⟩ := rp
    cases hreq : env.validateRequest r route pp <;>
      simp only <;>
      by_cases hb : (env.next r).body.length > 0 <;>
      [skip; simp [hb]; skip; simp [hb]] <;>
      cases hres : env.validateResponse r route pp (env.next r).code (env.next r).headers (env.next r).body <;>
      simp [hb, hres]

/-- Claim C6, counterexample: with a single issue in the log, the error
text is not the bare concatenation of the rendered issues (which, for a
one-element log, is the rendered issue itself under any delimiter): the
text carries a fixed preamble line first. -/
theorem Validate_text_counterexample :
    Validate [cIssue] ≠ some (issueLine cIssue) := by decide

/-- Claim C6, amended: `Validate` returns no error iff the issue log is
empty; on a non-empty log it returns one error whose text is the fixed
preamble line followed by the rendered issues, joined by the fixed
delimiter, in log order. -/
theorem Validate_summary (issues : List ValidationIssue) :
    (Validate issues = none ↔ issues = []) ∧
      (issues ≠ [] →
        Validate issues =
          some ("Errors were found validating the API specification:\n" ++
            String.intercalate ("\n---\n") (issues.map issueLine))) := by
  constructor
  · constructor
    · intro h
      by_contra hne
      simp [Validate, List.length_eq_zero, hne] at h
    · intro h
      subst h
      simp [Validate]
  · intro h
    simp [Validate, List.length_eq_zero, h]

/-- Claim C6, witness for the amended claim at concrete logs. -/
theorem Validate_summary_witness :
    Validate [] = none ∧
      Validate [cIssue] =
        some ("Errors were found validating the API specification:\n" ++ issueLine cIssue) := by
  refine ⟨(Validate_summary []).1.mpr rfl, ?_⟩
  have h := (Validate_summary [cIssue]).2 (by simp)
  rw [h]
  decide

/-- Claim C2: when the route resolves and both request and response pass
the engine's validation, no issue is appended, and `Validate` returns no
error afterwards (on a log that was empty before the exchange). -/
theorem serveHTTP_conformant (env : Env) (issues0 : List ValidationIssue) (r : Request)
    (route : Route) (pp : PathParams)
    (hroute : env.findRoute r.method r.url = .ok (route, pp))
    (hreq : env.validateRequest r route pp = none)
    (hres : env.validateResponse r route pp (env.next r).code (env.next r).headers (env.next r).body = none) :
    (serveHTTP env issues0 r).issues = issues0 ∧
      (issues0 = [] → Validate ((serveHTTP env issues0 r).issues) = none) := by
  have hiss : (serveHTTP env issues0 r).issues = issues0 := by
    unfold serveHTTP
    rw [hroute]
    simp only [hreq]
    by_cases hb : (env.next r).body.length > 0 <;> simp [hb, hres]
  exact ⟨hiss, fun h0 => by rw [hiss, h0]; rfl⟩

/-- Claim C2, witness: the fully conformant sample exchange leaves the
log empty and `Validate` reports no error. -/
theorem serveHTTP_conformant_witness :
    Validate ((serveHTTP envOk [] req1).issues) = none :=
  (serveHTTP_conformant envOk [] req1 route1 [] rfl rfl rfl).2 rfl

/-- Claim C3: when route resolution fails with error `e`, exactly one
issue carrying the route-not-found description is appended, the wrapped
handler still runs on the unmodified request, its response is relayed
as-is, and neither request nor response validation is attempted. -/
theorem serveHTTP_route_not_found (env : Env) (issues0 : List ValidationIssue) (r : Request)
    (e : String)
    (hroute : env.findRoute r.method r.url = .error e) :
    (serveHTTP env issues0 r).issues =
        issues0 ++
          [{ Method := r.method, URI := r.url,
             Description := "Route not found in specification: " ++ e }] ∧
      (serveHTTP env issues0 r).handlerCalls = [r] ∧
      (serveHTTP env issues0 r).events = renderEvents (env.next r) ∧
      (serveHTTP env issues0 r).requestValidations = 0 ∧
      (serveHTTP env issues0 r).responseValidations = 0 := by
  unfold serveHTTP
  rw [hroute]
  exact ⟨rfl, rfl, rfl, rfl, rfl⟩

/-- Claim C3, witness: the sample unresolvable exchange records exactly
the route-not-found issue and still relays the handler's response. -/
theorem serveHTTP_route_not_found_witness :
    (serveHTTP envNotFound [] req1).issues =
        [{ Method := "GET", URI := "http://petstore.swagger.io/v1/pets",
           Description := "Route not found in specification: Does not match any server" }] ∧
      (serveHTTP envNotFound [] req1).handlerCalls = [req1] ∧
      (serveHTTP envNotFound [] req1).events = renderEvents resp1 ∧
      (serveHTTP envNotFound [] req1).requestValidations = 0 ∧
      (serveHTTP envNotFound [] req1).responseValidations = 0 := by
  have h := serveHTTP_route_not_found envNotFound [] req1 ("Does not match any server") rfl
  refine ⟨?_, h.2.1, h.2.2.1, h.2.2.2.1, h.2.2.2.2⟩
  rw [h.1]
  decide

/-- Claim C4: when the route resolves but the request fails validation
with engine error `e`, exactly one issue with the invalid-request
description is appended, the exchange is not aborted — the wrapped
handler still runs on the unmodified request, its response is still
replayed — and response validation still takes place (whenever the
captured body is non-empty, which is the condition guarding it on every
path). -/
theorem serveHTTP_invalid_request (env : Env) (issues0 : List ValidationIssue) (r : Request)
    (route : Route) (pp : PathParams) (e : String)
    (hroute : env.findRoute r.method r.url = .ok (route, pp))
    (hreq : env.validateRequest r route pp = some e) :
    (∃ rest,
        (serveHTTP env issues0 r).issues =
          issues0 ++
            ({ Method := r.method, URI := r.url, Description := "Invalid request: " ++ e } :: rest)) ∧
      (((serveHTTP env issues0 r).issues.drop issues0.length).countP
          (fun i => i.Description == "Invalid request: " ++ e)) = 1 ∧
      (serveHTTP env issues0 r).handlerCalls = [r] ∧
      (serveHTTP env issues0 r).events = renderEvents (env.next r) ∧
      ((env.next r).body ≠ [] → (serveHTTP env issues0 r).responseValidations = 1) := by
  unfold serveHTTP
  rw [hroute]
  simp only [hreq]
  by_cases hb : (env.next r).body.length > 0
  · simp only [hb, if_true]
    cases hres : env.validateResponse r route pp (env.next r).code (env.next r).headers (env.next r).body with
    | some e2 =>
      refine ⟨⟨[{ Method := r.method, URI := r.url, Description := "Invalid response: " ++ e2 }], ?_⟩,
        ?_, by trivial, by trivial, fun _ => by trivial⟩
      · simp [addIssue]
      · have hne := Ne.symm (descr_req_ne_res e e2)
        simp [addIssue, List.drop_left, List.countP_cons, hne]
    | none =>
      refine ⟨⟨[], ?_⟩, ?_, by trivial, by trivial, fun _ => by trivial⟩
      · simp [addIssue]
      · simp [addIssue, List.drop_left, List.countP_cons]
  · simp only [hb, if_false]
    refine ⟨⟨[], ?_⟩, ?_, by trivial, by trivial, fun hne => ?_⟩
    · simp [addIssue]
    · simp [addIssue, List.drop_left, List.countP_cons]
    · exact absurd (by simpa using hb) hne

/-- Claim C4, witness: the sample exchange with a rejected request logs
exactly one invalid-request issue while the handler still runs and
response validation still happens on the non-empty body. -/
theorem serveHTTP_invalid_request_witness :
    ((serveHTTP envBadRequest [] req1).issues.countP
        (fun i => i.Description == "Invalid request: " ++ ("missing Content-Type"))) = 1 ∧
      (serveHTTP envBadRequest [] req1).handlerCalls = [req1] ∧
      (serveHTTP envBadRequest [] req1).responseValidations = 1 := by
  have h := serveHTTP_invalid_request envBadRequest [] req1 route1 []
    ("missing Content-Type") rfl rfl
  exact ⟨h.2.1, h.2.2.1, h.2.2.2.2 (by decide)⟩

/-- Claim C5: when the captured response body is empty, response
validation is skipped entirely and no invalid-response issue is ever
appended, whatever the response validator would say; when the captured
body is non-empty and fails validation with engine error `e2`, exactly
one issue with the invalid-response description is appended. -/
theorem serveHTTP_empty_body_skips (env : Env) (issues0 : List ValidationIssue) (r : Request) :
    ((env.next r).body = [] →
        (serveHTTP env issues0 r).responseValidations = 0 ∧
          ∀ i ∈ (serveHTTP env issues0 r).issues.drop issues0.length,
            ∀ e2 : String, i.Description ≠ "Invalid response: " ++ e2) ∧
      (∀ (route : Route) (pp : PathParams) (e2 : String),
        env.findRoute r.method r.url = .ok (route, pp) →
        (env.next r).body ≠ [] →
        env.validateResponse r route pp (env.next r).code (env.next r).headers (env.next r).body = some e2 →
        ((serveHTTP env issues0 r).issues.drop issues0.length).countP
            (fun i => i.Description == "Invalid response: " ++ e2) = 1) := by
  constructor
  · intro hb
    unfold serveHTTP
    cases henv : env.findRoute r.method r.url with
    | error e =>
      refine ⟨by trivial, ?_⟩
      intro i hi e2
      simp [addIssue, List.drop_left] at hi
      rw [hi]
      simpa using descr_route_ne_res e e2
    | ok rp =>
      obtain ⟨route, pp⟩ := rp
      have hlen : ¬((env.next r).body.length > 0) := by simp [hb]
      cases hreq : env.validateRequest r route pp with
      | some e =>
        refine ⟨by simp [hlen], ?_⟩
        intro i hi e2
        simp [hreq, hlen, addIssue, List.drop_left] at hi
        rw [hi]
        simpa using descr_req_ne_res e e2
      | none =>
        refine ⟨by simp [hlen], ?_⟩
        intro i hi e2
        simp [hreq, hlen, addIssue, List.drop_left] at hi
  · intro route pp e2 hroute hbne hres
    unfold serveHTTP
    rw [hroute]
    have hlen : (env.next r).body.length > 0 := List.length_pos.mpr hbne
    cases hreq : env.validateRequest r route pp with
    | some e =>
      have hne := descr_req_ne_res e e2
      simp [hreq, hlen, hres, addIssue, List.drop_left, List.countP_cons, hne]
    | none =>
      simp [hreq, hlen, hres, addIssue, List.drop_left, List.countP_cons]

/-- Claim C5, witness: with an empty captured body no response issue is
recorded even though the validator rejects everything, and with a
non-empty rejected body exactly one invalid-response issue is
recorded. -/
theorem serveHTTP_empty_body_skips_witness :
    ((serveHTTP envEmptyBody [] req1).responseValidations = 0 ∧
        (serveHTTP envEmptyBody [] req1).issues = []) ∧
      ((serveHTTP envBadResponse [] req1).issues.countP
          (fun i => i.Description == "Invalid response: " ++ ("unexpected value"))) = 1 := by
  have h1 := (serveHTTP_empty_body_skips envEmptyBody [] req1).1 rfl
  have h2 := (serveHTTP_empty_body_skips envBadResponse [] req1).2 route1 []
    ("unexpected value") rfl (by decide) rfl
  exact ⟨⟨h1.1, by decide⟩, h2⟩

/-- Claim C10: every exchange appends at most two issues; a
route-not-found exchange appends exactly one, and a resolved exchange
appends at most one invalid-request issue followed by at most one
invalid-response issue; every appended issue carries the request's
method and the string form of its URL. -/
theorem serveHTTP_issue_shape (env : Env) (issues0 : List ValidationIssue) (r : Request) :
    ∃ appended,
      (serveHTTP env issues0 r).issues = issues0 ++ appended ∧
        appended.length ≤ 2 ∧
        (∀ i ∈ appended, i.Method = r.method ∧ i.URI = r.url) ∧
        (∀ e : String, env.findRoute r.method r.url = .error e → appended.length = 1) ∧
        (∀ (route : Route) (pp : PathParams), env.findRoute r.method r.url = .ok (route, pp) →
          ∃ a b, appended = a ++ b ∧
            (a = [] ∨ ∃ e, a =
              [{ Method := r.method, URI := r.url, Description := "Invalid request: " ++ e }]) ∧
            (b = [] ∨ ∃ e, b =
              [{ Method := r.method, URI := r.url, Description := "Invalid response: " ++ e }])) := by
  unfold serveHTTP
  cases henv : env.findRoute r.method r.url with
  | error e =>
    refine ⟨[{ Method := r.method, URI := r.url, Description := "Route not found in specification: " ++ e }],
      by simp [addIssue], by simp, ?_, fun _ _ => rfl, ?_⟩
    · intro i hi
      simp at hi
      rw [hi]
      exact ⟨rfl, rfl⟩
    · intro route pp hcontra
      simp at hcontra
  | ok rp =>
    obtain ⟨route, pp⟩ := rp
    cases hreq : env.validateRequest r route pp with
    | some e =>
      by_cases hb : (env.next r).body.length > 0
      · cases hres : env.validateResponse r route pp (env.next r).code (env.next r).headers (env.next r).body with
        | some e2 =>
          refine ⟨[{ Method := r.method, URI := r.url, Description := "Invalid request: " ++ e },
              { Method := r.method, URI := r.url, Description := "Invalid response: " ++ e2 }],
            by simp [hreq, hb, hres, addIssue], by simp, ?_, ?_, ?_⟩
          · intro i hi
            simp at hi
            rcases hi with hi | hi <;> rw [hi] <;> exact ⟨rfl, rfl⟩
          · intro e' hcontra
            simp at hcontra
          · intro route' pp' _
            exact ⟨[{ Method := r.method, URI := r.url, Description := "Invalid request: " ++ e }],
              [{ Method := r.method, URI := r.url, Description := "Invalid response: " ++ e2 }],
              rfl, Or.inr ⟨e, rfl⟩, Or.inr ⟨e2, rfl⟩⟩
        | none =>
          refine ⟨[{ Method := r.method, URI := r.url, Description := "Invalid request: " ++ e }],
            by simp [hreq, hb, hres, addIssue], by simp, ?_, ?_, ?_⟩
          · intro i hi
            simp at hi
            rw [hi]
            exact ⟨rfl, rfl⟩
          · intro e' hcontra
            simp at hcontra
          · intro route' pp' _
            exact ⟨[{ Method := r.method, URI := r.url, Description := "Invalid request: " ++ e }],
              [], by simp, Or.inr ⟨e, rfl⟩, Or.inl rfl⟩
      · refine ⟨[{ Method := r.method, URI := r.url, Description := "Invalid request: " ++ e }],
          by simp [hreq, hb, addIssue], by simp, ?_, ?_, ?_⟩
        · intro i hi
          simp at hi
          rw [hi]
          exact ⟨rfl, rfl⟩
        · intro e' hcontra
          simp at hcontra
        · intro route' pp' _
          exact ⟨[{ Method := r.method, URI := r.url, Description := "Invalid request: " ++ e }],
            [], by simp, Or.inr ⟨e, rfl⟩, Or.inl rfl⟩
    | none =>
      by_cases hb : (env.next r).body.length > 0
      · cases hres : env.validateResponse r route pp (env.next r).code (env.next r).headers (env.next r).body with
        | some e2 =>
          refine ⟨[{ Method := r.method, URI := r.url, Description := "Invalid response: " ++ e2 }],
            by simp [hreq, hb, hres, addIssue], by simp, ?_, ?_, ?_⟩
          · intro i hi
            simp at hi
            rw [hi]
            exact ⟨rfl, rfl⟩
          · intro e' hcontra
            simp at hcontra
          · intro route' pp' _
            exact ⟨[], [{ Method := r.method, URI := r.url, Description := "Invalid response: " ++ e2 }],
              rfl, Or.inl rfl, Or.inr ⟨e2, rfl⟩⟩
        | none =>
          refine ⟨[], by simp [hreq, hb, hres], by simp, by simp, ?_, ?_⟩
          · intro e' hcontra
            simp at hcontra
          · intro route' pp' _
            exact ⟨[], [], rfl, Or.inl rfl, Or.inl rfl⟩
      · refine ⟨[], by simp [hreq, hb], by simp, by simp, ?_, ?_⟩
        · intro e' hcontra
          simp at hcontra
        · intro route' pp' _
          exact ⟨[], [], rfl, Or.inl rfl, Or.inl rfl⟩

/-- Claim C10, witness: the rejected-request sample exchange appends
exactly one issue, carrying the sample request's method and URL. -/
theorem serveHTTP_issue_shape_witness :
    (serveHTTP envBadRequest [] req1).issues.length ≤ 2 ∧
      ∀ i ∈ (serveHTTP envBadRequest [] req1).issues, i.Method = "GET" := by
  obtain ⟨appended, heq, hlen, hmu, -, hok⟩ := serveHTTP_issue_shape envBadRequest [] req1
  obtain ⟨a, b, -, -, -⟩ := hok route1 [] rfl
  constructor
  · rw [heq]
    simpa using hlen
  · intro i hi
    rw [heq] at hi
    simpa using (hmu i (by simpa using hi)).1

end Oaschecker
